import Mathlib

/-!
Verification of the Mastodon-Explorer timeline-fetching client
(`src/services/mastodon.ts`, class `MastodonService`).

The source contains two near-duplicate variants of the service separated by
a document marker.  The first variant (429 retry/backoff in `fetchApi`, a
10000 ms time budget, total-fetched cap 5000) is embedded as the primary
definitions below; the second variant (no retry, no time budget, cap 10000)
is embedded as `crawlLoopV2` / `getStatusesUntilV2`.

Modelling decisions:
- `created_at` (an ISO date string parsed with `new Date(...)` and compared
  with `<`) is modelled as the parsed timestamp, an `Int`.
- The network is an oracle.  For `fetchApi`, responses to one request are a
  function from the attempt counter (`retryCount`) to a `Response`; for the
  crawl loop the oracle additionally takes the loop-iteration index, so
  successive page fetches may be answered differently.
- `fetch`'s `response.ok` is `200 <= status <= 299` (`respOk`).
- Thrown JS errors are `Except` values.  `error.status` exists on HTTP
  errors; the token-precondition error of `verifyCredentials` carries none,
  so the error type distinguishes the two.
- Instrumentation fields that the source returns implicitly through its
  behaviour (the list of issued requests, the per-page trace `steps`, the
  running `totalFetched`, the sleep durations `waits`) are carried next to
  the source's return values so that theorems can speak about them.
- `crawlLoop` in the source is a `while` loop whose continuation requires a
  full page (`batch.length >= 40`) and a running total `<= 5000`; hence at
  most 126 iterations can occur.  The embedding uses structural fuel, the
  wrapper passes fuel 127, and `fuelExhausted = false` is proved: the fuel
  branch is never reached, so the fuel is an artifact, not a semantic cap.
- `onProgress` (a pure observer) and the inter-page jitter sleep have no
  effect on any returned value and are not modelled.
-/

namespace MastodonExplorer

/-- One status/post.  In the source `MastodonStatus` has `id : string` and
`created_at : string`; the crawl loop additionally reads `s.reblog` through
an `any` cast, modelled as a `Bool` (whether the `reblog` field is truthy). -/
structure MastodonStatus where
  id : String
  created_at : Int
  reblog : Bool
deriving DecidableEq

/-- A thrown error: an HTTP failure carrying `error.status`, or the
token-precondition failure of `verifyCredentials` (which carries no status). -/
inductive ApiError where
  | http (status : Nat)
  | tokenRequired
deriving DecidableEq

/-- A request as assembled by `fetchApi`: endpoint path, query parameters in
insertion order, and whether the Authorization header is attached. -/
structure ApiRequest where
  endpoint : String
  params : List (String × String)
  useAuth : Bool
deriving DecidableEq

/-- One HTTP response: status code, optional parsed `Retry-After` header
(seconds), and the parsed JSON body (used only when the status is ok). -/
structure Response (α : Type) where
  status : Nat
  retryAfter : Option Nat
  body : α

/-- `fetch`'s `Response.ok`: status in the range 200..299. -/
def respOk (status : Nat) : Bool := 200 ≤ status && status < 300

/-- Result of `fetchApi`: the returned body or thrown error, plus the list of
sleep durations (ms) taken before 429 retries, in order. -/
structure FetchOut (α : Type) where
  result : Except ApiError α
  waits : List Nat

/-- The wait before a 429 retry: `parseInt(retryAfter) * 1000` when the
`Retry-After` header is present, else `Math.pow(2, retryCount) * 1000`. -/
def waitMs (retryAfter : Option Nat) (retryCount : Nat) : Nat :=
  match retryAfter with
  | some s => s * 1000
  | none => 2 ^ retryCount * 1000

/-- Recursion core of `fetchApi`.  The source guard is
`response.status === 429 && retryCount < 2`, with `retryCount` incremented on
each retry; `fuel` is maintained as `2 - retryCount`, so `fuel > 0` is
exactly `retryCount < 2` and the recursion is structural.  (When `fuel = 0`
a 429 falls through to the `!response.ok` branch, exactly as in the source,
since `respOk 429 = false`.) -/
def fetchApiGo (net : ApiRequest → Nat → Response α) (req : ApiRequest)
    (retryCount fuel : Nat) : FetchOut α :=
  let r := net req retryCount
  match fuel with
  | 0 =>
    if respOk r.status then ⟨.ok r.body, []⟩ else ⟨.error (.http r.status), []⟩
  | f + 1 =>
    if r.status = 429 then
      let rest := fetchApiGo net req (retryCount + 1) f
      ⟨rest.result, waitMs r.retryAfter retryCount :: rest.waits⟩
    else if respOk r.status then ⟨.ok r.body, []⟩
    else ⟨.error (.http r.status), []⟩

/-- `fetchApi(endpoint, params, useAuth, retryCount)`: issue the request; on
HTTP 429 with `retryCount < 2`, sleep and retry with `retryCount + 1`; on any
other non-2xx status throw an error carrying the status; otherwise return the
parsed body. -/
def fetchApi (net : ApiRequest → Nat → Response α) (req : ApiRequest)
    (retryCount : Nat) : FetchOut α :=
  fetchApiGo net req retryCount (2 - retryCount)

/-- The terminal (non-retrying) outcome of one response, i.e. the
`!response.ok` check of `fetchApi`. -/
def terminalOf (r : Response α) : Except ApiError α :=
  if respOk r.status then .ok r.body else .error (.http r.status)

/-- `verifyCredentials()`: `if (!this.token) throw new Error(...)` before any
request; otherwise one `fetchApi` call.  The second component is the list of
HTTP attempts issued (one entry per attempt, 429 retries included). -/
def verifyCredentials (token : Option String)
    (net : ApiRequest → Nat → Response α) :
    Except ApiError α × List ApiRequest :=
  match token with
  | none => (.error .tokenRequired, [])
  | some _ =>
    let req : ApiRequest := ⟨("accounts/verify_credentials"), [], true⟩
    let out := fetchApi net req 0
    (out.result, List.replicate (out.waits.length + 1) req)

/-- Result of `getStatusesPage`: the page and whether it fell back to public
(unauthenticated) access. -/
structure PageResult where
  statuses : List MastodonStatus
  fellBack : Bool
deriving DecidableEq

/-- The request `getStatusesPage` builds: endpoint
`accounts/{accountId}/statuses`, params `limit` then (if present) `max_id`. -/
def statusesRequest (accountId : String) (maxId : Option String) (limit : Nat)
    (useAuth : Bool) : ApiRequest :=
  { endpoint := ("accounts/") ++ accountId ++ ("/statuses")
    params := (("limit"), toString limit) ::
      (match maxId with
       | some m => [(("max_id"), m)]
       | none => [])
    useAuth := useAuth }

/-- `getStatusesPage(accountId, maxId?, limit = 40)`: one authenticated
`fetchApi`; if it throws with `status === 403 || status === 401`, re-issue the
identical request unauthenticated and return its result with
`fellBack = true`; any other error propagates.  The second component is the
trace of `fetchApi` invocations made, in order. -/
def getStatusesPage (net : ApiRequest → Nat → Response (List MastodonStatus))
    (accountId : String) (maxId : Option String) (limit : Nat := 40) :
    Except ApiError PageResult × List ApiRequest :=
  let authReq := statusesRequest accountId maxId limit true
  match (fetchApi net authReq 0).result with
  | .ok statuses => (.ok ⟨statuses, false⟩, [authReq])
  | .error e =>
    if e = .http 403 ∨ e = .http 401 then
      let pubReq := statusesRequest accountId maxId limit false
      match (fetchApi net pubReq 0).result with
      | .ok statuses => (.ok ⟨statuses, true⟩, [authReq, pubReq])
      | .error e2 => (.error e2, [authReq, pubReq])
    else (.error e, [authReq])

/-- Trace of one loop iteration of `getStatusesUntil`: the cursor the page
was requested with, the raw page, and that page's fallback flag. -/
structure CrawlStep where
  cursorBefore : Option String
  batch : List MastodonStatus
  fellBack : Bool
deriving DecidableEq

/-- Return value of `getStatusesUntil` (`statuses`, `lastId`,
`reachedThreshold`, `fellBack`) plus instrumentation: the final value of the
source's `totalFetched` counter, the per-page trace, and whether the
structural fuel of the embedding ran out (proved impossible from the real
entry point). -/
structure CrawlOut where
  statuses : List MastodonStatus
  lastId : Option String
  reachedThreshold : Bool
  fellBack : Bool
  totalFetched : Nat
  steps : List CrawlStep
  fuelExhausted : Bool
deriving DecidableEq

/-- The `while (!reachedThreshold)` loop of `getStatusesUntil` (first source
variant), one constructor case per fuel step.  Mirrors the source order:
time-budget check, page fetch (errors propagate), `fellBack` latch, empty
check, cursor advance, counter update, reblog filter and append, threshold
check, `batch.length < 40` break, `totalFetched > 5000` break.
`elapsed k` models `Date.now() - startTime` at the top of iteration `k`. -/
def crawlLoop (net : Nat → ApiRequest → Nat → Response (List MastodonStatus))
    (elapsed : Nat → Nat) (accountId : String) (untilDate : Int) :
    Nat → Nat → List MastodonStatus → Option String → Nat → Bool →
    Except ApiError CrawlOut
  | 0, _, acc, maxId, totalFetched, wasFellBack =>
    .ok ⟨acc, maxId, false, wasFellBack, totalFetched, [], true⟩
  | fuel + 1, k, acc, maxId, totalFetched, wasFellBack =>
    if elapsed k > 10000 then
      .ok ⟨acc, maxId, false, wasFellBack, totalFetched, [], false⟩
    else
      match (getStatusesPage (net k) accountId maxId 40).1 with
      | .error e => .error e
      | .ok pr =>
        let wasFellBack := wasFellBack || pr.fellBack
        match pr.statuses with
        | [] =>
          .ok ⟨acc, maxId, false, wasFellBack, totalFetched,
            [⟨maxId, [], pr.fellBack⟩], false⟩
        | s0 :: srest =>
          let batch := s0 :: srest
          let lastS := batch.getLast (by simp [batch])
          let maxId' := some lastS.id
          let totalFetched' := totalFetched + batch.length
          let originalPosts := batch.filter (fun s => !s.reblog)
          let acc' := acc ++ originalPosts
          let reached := decide (lastS.created_at < untilDate)
          let step : CrawlStep := ⟨maxId, batch, pr.fellBack⟩
          if batch.length < 40 then
            .ok ⟨acc', maxId', reached, wasFellBack, totalFetched', [step], false⟩
          else if totalFetched' > 5000 then
            .ok ⟨acc', maxId', reached, wasFellBack, totalFetched', [step], false⟩
          else if reached then
            .ok ⟨acc', maxId', true, wasFellBack, totalFetched', [step], false⟩
          else
            match crawlLoop net elapsed accountId untilDate fuel (k + 1) acc'
                maxId' totalFetched' wasFellBack with
            | .error e => .error e
            | .ok out => .ok { out with steps := step :: out.steps }

/-- `getStatusesUntil(accountId, untilDate, startId?)`, first source variant:
run the crawl loop from an empty accumulator, cursor `startId`, zero counter.
Fuel 127 suffices: continuing an iteration needs `batch.length >= 40` and a
new total `<= 5000`, so at most 126 iterations occur (proved below). -/
def getStatusesUntil
    (net : Nat → ApiRequest → Nat → Response (List MastodonStatus))
    (elapsed : Nat → Nat) (accountId : String) (untilDate : Int)
    (startId : Option String) : Except ApiError CrawlOut :=
  crawlLoop net elapsed accountId untilDate 127 0 [] startId 0 false

/-- The `while (hasMore && !reachedThreshold)` loop of the second source
variant: no time budget, total-fetched cap `10000`.  `hasMore = false`
(empty or undersized page) and `break` (cap) stop at the same points, so the
observable structure matches the first variant with those two changes. -/
def crawlLoopV2 (net : Nat → ApiRequest → Nat → Response (List MastodonStatus))
    (accountId : String) (untilDate : Int) :
    Nat → Nat → List MastodonStatus → Option String → Nat → Bool →
    Except ApiError CrawlOut
  | 0, _, acc, maxId, totalFetched, wasFellBack =>
    .ok ⟨acc, maxId, false, wasFellBack, totalFetched, [], true⟩
  | fuel + 1, k, acc, maxId, totalFetched, wasFellBack =>
    match (getStatusesPage (net k) accountId maxId 40).1 with
    | .error e => .error e
    | .ok pr =>
      let wasFellBack := wasFellBack || pr.fellBack
      match pr.statuses with
      | [] =>
        .ok ⟨acc, maxId, false, wasFellBack, totalFetched,
          [⟨maxId, [], pr.fellBack⟩], false⟩
      | s0 :: srest =>
        let batch := s0 :: srest
        let lastS := batch.getLast (by simp [batch])
        let maxId' := some lastS.id
        let totalFetched' := totalFetched + batch.length
        let originalPosts := batch.filter (fun s => !s.reblog)
        let acc' := acc ++ originalPosts
        let reached := decide (lastS.created_at < untilDate)
        let step : CrawlStep := ⟨maxId, batch, pr.fellBack⟩
        if batch.length < 40 then
          .ok ⟨acc', maxId', reached, wasFellBack, totalFetched', [step], false⟩
        else if totalFetched' > 10000 then
          .ok ⟨acc', maxId', reached, wasFellBack, totalFetched', [step], false⟩
        else if reached then
          .ok ⟨acc', maxId', true, wasFellBack, totalFetched', [step], false⟩
        else
          match crawlLoopV2 net accountId untilDate fuel (k + 1) acc'
              maxId' totalFetched' wasFellBack with
          | .error e => .error e
          | .ok out => .ok { out with steps := step :: out.steps }

/-- `getStatusesUntil`, second source variant (cap 10000, so at most 251
iterations; fuel 252 suffices by the same argument as for the first). -/
def getStatusesUntilV2
    (net : Nat → ApiRequest → Nat → Response (List MastodonStatus))
    (accountId : String) (untilDate : Int) (startId : Option String) :
    Except ApiError CrawlOut :=
  crawlLoopV2 net accountId untilDate 252 0 [] startId 0 false

/-! Trace-analysis definitions used to state the claims. -/

/-- The cursor value after processing one page: the id of the page's last
(oldest) element, or the unchanged cursor when the page is empty. -/
def cursorAfter (cur : Option String) (st : CrawlStep) : Option String :=
  match st.batch.getLast? with
  | some x => some x.id
  | none => cur

/-- The cursor discipline of a session trace: each page was requested with
the cursor left by the previous one, and `final` is the cursor after the
last page. -/
def chainFrom (cur final : Option String) : List CrawlStep → Bool
  | [] => decide (final = cur)
  | st :: rest =>
    decide (st.cursorBefore = cur) && chainFrom (cursorAfter cur st) final rest

/-- The successive cursor values set during a session: the id of the last
element of every non-empty page, in order. -/
def cursorTrail (steps : List CrawlStep) : List String :=
  steps.filterMap (fun st => st.batch.getLast?.map (fun x => x.id))

/-- The value of the `totalFetched` counter after the first `n` pages. -/
def prefixFetched (steps : List CrawlStep) (n : Nat) : Nat :=
  ((steps.take n).map (fun st => st.batch.length)).sum

/-- Whether the last fetched page crossed the threshold date: its oldest
(last) element is strictly older than `untilDate`.  `false` when there is no
page or the last page is empty. -/
def finalReached (untilDate : Int) : List CrawlStep → Bool
  | [] => false
  | [st] =>
    match st.batch.getLast? with
    | some x => decide (x.created_at < untilDate)
    | none => false
  | _ :: st :: rest => finalReached untilDate (st :: rest)

/-- All fetched statuses of a session, in fetch order, reblogs included. -/
def fetchedBatches (steps : List CrawlStep) : List MastodonStatus :=
  (steps.map (fun st => st.batch)).flatten

/-- A step's page is a body the network oracle served for a statuses request
with that step's cursor (at some iteration, attempt, and auth mode). -/
def batchFromNet (net : Nat → ApiRequest → Nat → Response (List MastodonStatus))
    (accountId : String) (st : CrawlStep) : Prop :=
  ∃ i useAuth att,
    st.batch = (net i (statusesRequest accountId st.cursorBefore 40 useAuth) att).body

/-! Concrete network oracles and runs used to instantiate the theorems. -/

/-- A session whose wall clock never advances (the time budget never fires). -/
def zeroElapsed : Nat → Nat := fun _ => 0

/-- 125 full pages of reblogs dated 100, then one full page dated 0: page 126
pushes the counter to 5040 > 5000 while also crossing a threshold of 50. -/
def c1capNet : Nat → ApiRequest → Nat → Response (List MastodonStatus) :=
  fun k _ _ =>
    if k < 125 then ⟨200, none, List.replicate 40 ⟨("n"), 100, true⟩⟩
    else ⟨200, none, List.replicate 40 ⟨("o"), 0, true⟩⟩

/-- A single page with one post dated 5. -/
def c1wNet : Nat → ApiRequest → Nat → Response (List MastodonStatus) :=
  fun _ _ _ => ⟨200, none, [⟨("a1"), 5, false⟩]⟩

/-- Authenticated requests fail with 403; unauthenticated ones return an
empty page. -/
def c2cNet : Nat → ApiRequest → Nat → Response (List MastodonStatus) :=
  fun _ r _ => if r.useAuth then ⟨403, none, []⟩ else ⟨200, none, []⟩

/-- Every request succeeds with an empty page. -/
def c2wNet : Nat → ApiRequest → Nat → Response (List MastodonStatus) :=
  fun _ _ _ => ⟨200, none, []⟩

/-- Authenticated requests fail with 403; unauthenticated ones return one
post. -/
def c3netA : ApiRequest → Nat → Response (List MastodonStatus) :=
  fun r _ => if r.useAuth then ⟨403, none, []⟩ else ⟨200, none, [⟨("s1"), 3, false⟩]⟩

/-- Every request fails with 500. -/
def c3netB : ApiRequest → Nat → Response (List MastodonStatus) :=
  fun _ _ => ⟨500, none, []⟩

/-- A request used to exercise the request layer directly. -/
def c4req : ApiRequest := ⟨("accounts/1/statuses"), [], true⟩

/-- Rate-limited on every attempt; the first 429 carries `Retry-After: 7`. -/
def c4netLimited : ApiRequest → Nat → Response (List MastodonStatus) :=
  fun _ i => if i = 0 then ⟨429, some 7, []⟩ else ⟨429, none, []⟩

/-- Rate-limited once (no `Retry-After`), then a success. -/
def c4netRecover : ApiRequest → Nat → Response (List MastodonStatus) :=
  fun _ i => if i = 0 then ⟨429, none, []⟩ else ⟨200, none, [⟨("s2"), 4, false⟩]⟩

/-- An immediate success, no 429. -/
def c4netOk : ApiRequest → Nat → Response (List MastodonStatus) :=
  fun _ _ => ⟨200, none, [⟨("s3"), 9, false⟩]⟩

/-- A single undersized page with one post dated 5 (newer than a threshold
of 0). -/
def c5cNet : Nat → ApiRequest → Nat → Response (List MastodonStatus) :=
  fun _ _ _ => ⟨200, none, [⟨("p1"), 5, false⟩]⟩

/-- A single undersized page with two posts dated 7 and 6. -/
def c5wNet : Nat → ApiRequest → Nat → Response (List MastodonStatus) :=
  fun _ _ _ => ⟨200, none, [⟨("q1"), 7, false⟩, ⟨("q2"), 6, false⟩]⟩

/-- A single page mixing originals and a reblog. -/
def c6net : Nat → ApiRequest → Nat → Response (List MastodonStatus) :=
  fun _ _ _ =>
    ⟨200, none, [⟨("x1"), 5, false⟩, ⟨("x2"), 4, true⟩, ⟨("x3"), 3, false⟩]⟩

/-- The expected run of `c6net`: one page, reblog `x2` dropped. -/
def c6out : CrawlOut :=
  ⟨[⟨("x1"), 5, false⟩, ⟨("x3"), 3, false⟩], some ("x3"), false, false, 3,
    [⟨none, [⟨("x1"), 5, false⟩, ⟨("x2"), 4, true⟩, ⟨("x3"), 3, false⟩], false⟩],
    false⟩

/-- The `max_id` query parameter of a request, if any. -/
def lookupMaxId (r : ApiRequest) : Option String :=
  List.lookup ("max_id") r.params

/-- A timeline ordered by id length: the first page ends at id `aa`, the page
below cursor `aa` holds the single older post `a`, anything older is empty. -/
def c7page (cur : Option String) : List MastodonStatus :=
  match cur with
  | none => List.replicate 39 ⟨("aaa"), 5, false⟩ ++ [⟨("aa"), 5, false⟩]
  | some c => if c = ("aa") then [⟨("a"), 5, false⟩] else []

/-- A server for `c7page`, keyed on the request's `max_id` parameter. -/
def c7net : Nat → ApiRequest → Nat → Response (List MastodonStatus) :=
  fun _ r _ => ⟨200, none, c7page (lookupMaxId r)⟩

/-- The expected run of `c7net`: a full first page then one older post. -/
def c7out : CrawlOut :=
  ⟨(List.replicate 39 ⟨("aaa"), 5, false⟩ ++ [⟨("aa"), 5, false⟩]) ++
      [⟨("a"), 5, false⟩],
    some ("a"), false, false, 41,
    [⟨none, List.replicate 39 ⟨("aaa"), 5, false⟩ ++ [⟨("aa"), 5, false⟩], false⟩,
     ⟨some ("aa"), [⟨("a"), 5, false⟩], false⟩],
    false⟩

/-- One full page of 40 posts, then a single-post page. -/
def c8net : Nat → ApiRequest → Nat → Response (List MastodonStatus) :=
  fun k _ _ =>
    if k = 0 then ⟨200, none, List.replicate 40 ⟨("b1"), 5, false⟩⟩
    else ⟨200, none, [⟨("b2"), 4, false⟩]⟩

/-- The expected run of `c8net`: the full page, then the undersized page. -/
def c8out : CrawlOut :=
  ⟨List.replicate 40 ⟨("b1"), 5, false⟩ ++ [⟨("b2"), 4, false⟩],
    some ("b2"), false, false, 41,
    [⟨none, List.replicate 40 ⟨("b1"), 5, false⟩, false⟩,
     ⟨some ("b1"), [⟨("b2"), 4, false⟩], false⟩],
    false⟩

/-- Every request succeeds with an empty page (for the cursor-frame claim). -/
def c10net : Nat → ApiRequest → Nat → Response (List MastodonStatus) :=
  fun _ _ _ => ⟨200, none, []⟩

/-! Helper lemmas. -/

/-- A body returned by `fetchApiGo` is the body of one of the oracle's
responses to the request. -/
theorem fetchApiGo_ok_body {α : Type} (net : ApiRequest → Nat → Response α)
    (req : ApiRequest) :
    ∀ fuel rc b, (fetchApiGo net req rc fuel).result = .ok b →
      ∃ att, b = (net req att).body := by
  intro fuel
  induction fuel with
  | zero =>
    intro rc b h
    simp only [fetchApiGo] at h
    split at h
    · exact ⟨rc, by cases h; rfl⟩
    · cases h
  | succ f ih =>
    intro rc b h
    simp only [fetchApiGo] at h
    split at h
    · exact ih (rc + 1) b h
    · split at h
      · exact ⟨rc, by cases h; rfl⟩
      · cases h

/-- A body returned by `fetchApi` is the body of one of the oracle's
responses to the request. -/
theorem fetchApi_ok_body {α : Type} (net : ApiRequest → Nat → Response α)
    (req : ApiRequest) (rc : Nat) (b : α)
    (h : (fetchApi net req rc).result = .ok b) :
    ∃ att, b = (net req att).body :=
  fetchApiGo_ok_body net req (2 - rc) rc b h

/-- A successful page returned by `getStatusesPage` is a body the oracle
served for the statuses request with the given cursor (authenticated or
fallback). -/
theorem getStatusesPage_ok_body
    (net : ApiRequest → Nat → Response (List MastodonStatus))
    (accountId : String) (maxId : Option String) (limit : Nat)
    (pr : PageResult)
    (h : (getStatusesPage net accountId maxId limit).1 = .ok pr) :
    ∃ useAuth att,
      pr.statuses = (net (statusesRequest accountId maxId limit useAuth) att).body := by
  simp only [getStatusesPage] at h
  split at h
  · obtain ⟨att, hb⟩ := fetchApi_ok_body net _ 0 _ (by assumption)
    exact ⟨true, att, by cases h; exact hb⟩
  · split at h
    · split at h
      · obtain ⟨att, hb⟩ := fetchApi_ok_body net _ 0 _ (by assumption)
        exact ⟨false, att, by cases h; exact hb⟩
      · cases h
    · cases h

theorem prefixFetched_zero (steps : List CrawlStep) : prefixFetched steps 0 = 0 := by
  simp [prefixFetched]

theorem prefixFetched_cons_succ (st : CrawlStep) (t : List CrawlStep) (m : Nat) :
    prefixFetched (st :: t) (m + 1) = st.batch.length + prefixFetched t m := by
  simp [prefixFetched, List.take_succ_cons]

/-- Master invariant of the crawl loop (first variant), proved in one
induction on the fuel.  For every successful run from an intermediate state:
the accumulated statuses are the initial accumulator plus the non-reblog
elements of the fetched pages in order (1), the counter grows by the total
page sizes, reblogs included (2), the cursor discipline holds (3), every
non-final page has at least the requested 40 elements (4), the counter does
not exceed the 5000 cap before any non-final page (5), `reachedThreshold` is
exactly whether the last page crossed the threshold (6), at most 126 pages
are fetched (7), fuel 127 from a fresh state never runs out (8), and every
page is a body the oracle served for that step's cursor (9). -/
theorem crawlLoop_spec
    (net : Nat → ApiRequest → Nat → Response (List MastodonStatus))
    (elapsed : Nat → Nat) (accountId : String) (untilDate : Int) :
    ∀ fuel k acc maxId total fb out,
    crawlLoop net elapsed accountId untilDate fuel k acc maxId total fb = .ok out →
    out.statuses = acc ++ (fetchedBatches out.steps).filter (fun s => !s.reblog)
    ∧ out.totalFetched = total + (fetchedBatches out.steps).length
    ∧ chainFrom maxId out.lastId out.steps = true
    ∧ (∀ st ∈ out.steps.dropLast, 40 ≤ st.batch.length)
    ∧ (total ≤ 5000 → ∀ n < out.steps.length, total + prefixFetched out.steps n ≤ 5000)
    ∧ out.reachedThreshold = finalReached untilDate out.steps
    ∧ (total ≤ 5000 → out.steps.length ≤ 126 - total / 40)
    ∧ (total ≤ 5000 → 5040 < total + 40 * fuel → out.fuelExhausted = false)
    ∧ (∀ st ∈ out.steps, batchFromNet net accountId st) := by
  intro fuel
  induction fuel with
  | zero =>
    intro k acc maxId total fb out h
    simp only [crawlLoop] at h
    cases h
    refine ⟨by simp [fetchedBatches], by simp [fetchedBatches],
      by simp [chainFrom], by simp, ?_, by simp [finalReached], by simp, ?_, by simp⟩
    · intro _ n hn
      exact absurd hn (by simp)
    · intro h5 hfuel
      exact absurd hfuel (by omega)
  | succ fuel ih =>
    intro k acc maxId total fb out h
    simp only [crawlLoop] at h
    split at h
    · -- time budget exceeded before this iteration
      cases h
      refine ⟨by simp [fetchedBatches], by simp [fetchedBatches],
        by simp [chainFrom], by simp, ?_, by simp [finalReached], by simp,
        by simp, by simp⟩
      intro _ n hn
      exact absurd hn (by simp)
    · rename_i htime
      split at h
      · exact Except.noConfusion h
      · rename_i pr hpage
        split at h
        · -- empty page
          rename_i hS
          cases h
          have hprov : batchFromNet net accountId ⟨maxId, [], pr.fellBack⟩ := by

            obtain ⟨useAuth, att, hb⟩ :=
              getStatusesPage_ok_body (net k) accountId maxId 40 pr hpage
            exact ⟨k, useAuth, att, by rw [hS] at hb; exact hb⟩
          refine ⟨by simp [fetchedBatches], by simp [fetchedBatches],
            by simp [chainFrom, cursorAfter], by simp, ?_,
            by simp [finalReached], ?_, by simp, ?_⟩
          · intro h5 n hn
            simp only [List.length_cons, List.length_nil] at hn
            have hn0 : n = 0 := by omega
            subst hn0
            simp [prefixFetched_zero]
            omega
          · intro h5
            simp only [List.length_cons, List.length_nil]
            omega
          · intro st hst
            simp only [List.mem_cons, List.not_mem_nil, or_false] at hst
            subst hst
            exact hprov
        · -- non-empty page
          rename_i s0 srest hS
          have hprov : batchFromNet net accountId ⟨maxId, s0 :: srest, pr.fellBack⟩ := by
            obtain ⟨useAuth, att, hb⟩ :=
              getStatusesPage_ok_body (net k) accountId maxId 40 pr hpage
            exact ⟨k, useAuth, att, by rw [hS] at hb; exact hb⟩
          have hlast :
              (s0 :: srest).getLast? = some ((s0 :: srest).getLast (by simp)) :=
            List.getLast?_eq_getLast_of_ne_nil (by simp)
          split at h
          · -- undersized page: stop
            rename_i hlt
            cases h
            refine ⟨by simp [fetchedBatches], by simp [fetchedBatches], ?_,
              by simp, ?_, ?_, ?_, by simp, ?_⟩
            · simp [chainFrom, cursorAfter, hlast]
            · intro h5 n hn
              simp only [List.length_cons, List.length_nil] at hn
              have hn0 : n = 0 := by omega
              subst hn0
              simp [prefixFetched_zero]
              omega
            · simp [finalReached, hlast]
            · intro h5
              simp only [List.length_cons, List.length_nil]
              omega
            · intro st hst
              simp only [List.mem_cons, List.not_mem_nil, or_false] at hst
              subst hst
              exact hprov
          · split at h
            · -- cap exceeded: stop
              rename_i hlt hcap
              cases h
              refine ⟨by simp [fetchedBatches], by simp [fetchedBatches], ?_,
                by simp, ?_, ?_, ?_, by simp, ?_⟩
              · simp [chainFrom, cursorAfter, hlast]
              · intro h5 n hn
                simp only [List.length_cons, List.length_nil] at hn
                have hn0 : n = 0 := by omega
                subst hn0
                simp [prefixFetched_zero]
                omega
              · simp [finalReached, hlast]
              · intro h5
                simp only [List.length_cons, List.length_nil]
                omega
              · intro st hst
                simp only [List.mem_cons, List.not_mem_nil, or_false] at hst
                subst hst
                exact hprov
            · split at h
              · -- threshold reached: stop
                rename_i hlt hcap hreach
                cases h
                refine ⟨by simp [fetchedBatches], by simp [fetchedBatches], ?_,
                  by simp, ?_, ?_, ?_, by simp, ?_⟩
                · simp [chainFrom, cursorAfter, hlast]
                · intro h5 n hn
                  simp only [List.length_cons, List.length_nil] at hn
                  have hn0 : n = 0 := by omega
                  subst hn0
                  simp [prefixFetched_zero]
                  omega
                · simp [finalReached, hlast, hreach]
                · intro h5
                  simp only [List.length_cons, List.length_nil]
                  omega
                · intro st hst
                  simp only [List.mem_cons, List.not_mem_nil, or_false] at hst
                  subst hst
                  exact hprov
              · -- continue: recursive call
                rename_i hlt hcap hreach
                split at h
                · exact Except.noConfusion h
                · rename_i out' hrec
                  cases h
                  obtain ⟨ih1, ih2, ih3, ih4, ih5, ih6, ih7, ih8, ih9⟩ :=
                    ih (k + 1) _ _ _ _ out' hrec
                  have hlen : 40 ≤ (s0 :: srest).length := by omega
                  have hcap' : total + (s0 :: srest).length ≤ 5000 := by omega
                  refine ⟨?_, ?_, ?_, ?_, ?_, ?_, ?_, ?_, ?_⟩
                  · simp only [ih1, fetchedBatches, List.map_cons, List.flatten_cons,
                      List.filter_append, List.append_assoc]
                  · simp only [ih2, fetchedBatches, List.map_cons, List.flatten_cons,
                      List.length_append]
                    omega
                  · simp only [chainFrom, cursorAfter, hlast, Bool.and_eq_true,
                      decide_eq_true_eq]
                    exact ⟨trivial, ih3⟩
                  · intro st hst
                    rcases hsteps : out'.steps with _ | ⟨a, t⟩
                    · rw [hsteps] at hst
                      simp [List.dropLast] at hst
                    · rw [hsteps] at hst ih4
                      simp only [List.dropLast, List.mem_cons] at hst
                      rcases hst with rfl | hst
                      · exact hlen
                      · exact ih4 st (by simpa [List.dropLast] using hst)
                  · intro h5 n hn
                    rcases n with _ | m
                    · simp only [prefixFetched_zero]
                      omega
                    · rw [prefixFetched_cons_succ]
                      dsimp only
                      simp only [List.length_cons] at hn
                      have := ih5 hcap' m (by omega)
                      omega
                  · dsimp only
                    cases hsteps : out'.steps with
                    | nil =>
                      rw [hsteps] at ih6
                      simp only [finalReached] at ih6
                      simp only [finalReached, hlast, ih6]
                      simp only [Bool.not_eq_true] at hreach
                      exact hreach.symm
                    | cons a t =>
                      rw [hsteps] at ih6
                      simp only [finalReached]
                      exact ih6
                  · intro h5
                    have := ih7 hcap'
                    simp only [List.length_cons]
                    omega
                  · intro h5 hfuel
                    exact ih8 hcap' (by omega)
                  · intro st hst
                    rcases List.mem_cons.mp hst with rfl | hst
                    · exact hprov
                    · exact ih9 st hst

theorem getLast?_some_mem {α : Type} {l : List α} {x : α}
    (h : l.getLast? = some x) : x ∈ l := by
  cases l with
  | nil => simp at h
  | cons a t =>
    rw [List.getLast?_eq_getLast_of_ne_nil (by simp)] at h
    obtain rfl : (a :: t).getLast (by simp) = x := by
      injection h
    exact List.getLast_mem _

/-- If the last page crossed the threshold, some page's oldest element is
strictly older than the threshold. -/
theorem finalReached_true_exists (u : Int) :
    ∀ steps, finalReached u steps = true →
      ∃ st ∈ steps, ∃ x, st.batch.getLast? = some x ∧ x.created_at < u := by
  intro steps
  induction steps with
  | nil => intro h; simp [finalReached] at h
  | cons st rest ih =>
    intro h
    cases rest with
    | nil =>
      simp only [finalReached] at h
      split at h
      · rename_i x hx
        exact ⟨st, List.mem_cons_self _ _, x, hx, by simpa using h⟩
      · cases h
    | cons b t =>
      simp only [finalReached] at h
      obtain ⟨st', hmem, hx⟩ := ih h
      exact ⟨st', List.mem_cons_of_mem _ hmem, hx⟩

/-- Under a server that only returns ids strictly below the requested
cursor (in some numeric embedding `f` of ids), the session's successive
cursor values strictly decrease. -/
theorem trail_pairwise (f : String → Nat)
    (net : Nat → ApiRequest → Nat → Response (List MastodonStatus))
    (accountId : String)
    (hserver : ∀ i att (lim : Nat) useAuth c s,
      s ∈ (net i (statusesRequest accountId (some c) lim useAuth) att).body →
        f s.id < f c) :
    ∀ (steps : List CrawlStep) (cur final : Option String),
      chainFrom cur final steps = true →
      (∀ st ∈ steps, batchFromNet net accountId st) →
      (cur.toList ++ cursorTrail steps).Pairwise (fun a b => f b < f a) := by
  intro steps
  induction steps with
  | nil =>
    intro cur final _ _
    cases cur <;> simp [cursorTrail]
  | cons st rest ih =>
    intro cur final hchain hprov
    simp only [chainFrom, Bool.and_eq_true, decide_eq_true_eq] at hchain
    obtain ⟨hcur, hchain'⟩ := hchain
    have hstp : batchFromNet net accountId st := hprov st (List.mem_cons_self _ _)
    have hrest : ∀ s' ∈ rest, batchFromNet net accountId s' :=
      fun s' h => hprov s' (List.mem_cons_of_mem _ h)
    cases hlast : st.batch.getLast? with
    | none =>
      have hca : cursorAfter cur st = cur := by simp [cursorAfter, hlast]
      rw [hca] at hchain'
      have := ih cur final hchain' hrest
      simpa [cursorTrail, hlast] using this
    | some x =>
      have hca : cursorAfter cur st = some x.id := by simp [cursorAfter, hlast]
      rw [hca] at hchain'
      have ihp := ih (some x.id) final hchain' hrest
      simp only [Option.toList_some, List.singleton_append] at ihp
      have htrail : cursorTrail (st :: rest) = x.id :: cursorTrail rest := by
        simp [cursorTrail, hlast]
      cases cur with
      | none => simpa [htrail] using ihp
      | some c =>
        have hxid : f x.id < f c := by
          obtain ⟨i, useAuth, att, hb⟩ := hstp
          rw [hcur] at hb
          exact hserver i att 40 useAuth c x (hb ▸ getLast?_some_mem hlast)
        simp only [Option.toList_some, List.singleton_append, htrail]
        refine List.Pairwise.cons ?_ ihp
        intro b hb'
        rcases List.mem_cons.mp hb' with rfl | hbt
        · exact hxid
        · exact Nat.lt_trans (List.rel_of_pairwise_cons ihp hbt) hxid

/-- A run whose first page fetch succeeds with an empty page (and whose time
budget has not already expired) returns immediately: no accumulated posts,
unchanged cursor, `reachedThreshold = false`, and the fallback flag of that
single page fetch. -/
theorem crawl_empty_first
    (net : Nat → ApiRequest → Nat → Response (List MastodonStatus))
    (elapsed : Nat → Nat) (accountId : String) (untilDate : Int)
    (startId : Option String) (fb : Bool)
    (htime : elapsed 0 ≤ 10000)
    (hpage : (getStatusesPage (net 0) accountId startId 40).1 = .ok ⟨[], fb⟩) :
    getStatusesUntil net elapsed accountId untilDate startId =
      .ok ⟨[], startId, false, fb, 0, [⟨startId, [], fb⟩], false⟩ := by
  have step : ∀ fuel,
      crawlLoop net elapsed accountId untilDate (fuel + 1) 0 [] startId 0 false =
        .ok ⟨[], startId, false, fb, 0, [⟨startId, [], fb⟩], false⟩ := by
    intro fuel
    simp only [crawlLoop]
    rw [if_neg (by omega)]
    rw [hpage]
    simp
  exact step 126

/-! Claim theorems. -/

/-- C1 (amended): exceeding the total-fetched cap stops the loop — the
counter is at most 5000 before every page that is followed by another fetch —
but the returned `reachedThreshold` is not forced to `false`: it equals
whether the final page's oldest post is older than `untilDate`, so it is
`false` only when that cap-exceeding page did not itself cross the
threshold. -/
theorem c1_cap_stop
    (net : Nat → ApiRequest → Nat → Response (List MastodonStatus))
    (elapsed : Nat → Nat) (accountId : String) (untilDate : Int)
    (startId : Option String) (out : CrawlOut)
    (h : getStatusesUntil net elapsed accountId untilDate startId = .ok out) :
    (∀ n < out.steps.length, prefixFetched out.steps n ≤ 5000)
    ∧ out.reachedThreshold = finalReached untilDate out.steps := by
  obtain ⟨-, -, -, -, h5, h6, -, -, -⟩ :=
    crawlLoop_spec net elapsed accountId untilDate 127 0 [] startId 0 false out h
  refine ⟨?_, h6⟩
  intro n hn
  have := h5 (by omega) n hn
  omega

set_option maxRecDepth 10000 in
/-- C1 counterexample: with `c1capNet` and threshold 50, page 126 pushes the
counter from 5000 to 5040 > 5000 and its oldest post (dated 0) is older than
the threshold; the loop does stop, but the returned `reachedThreshold` is
`true`, not `false` as the claim demands. -/
theorem c1_counterexample :
    (getStatusesUntil c1capNet zeroElapsed ("acct") 50 none).toOption.map
        (fun o => (o.totalFetched, o.reachedThreshold, o.steps.length,
          prefixFetched o.steps 125)) =
      some (5040, true, 126, 5000) := by
  rfl

/-- C1 witness: the amended theorem instantiated on a one-page run whose
single page both ends the crawl and crosses the threshold 10. -/
theorem c1_witness :
    prefixFetched [(⟨none, [⟨("a1"), 5, false⟩], false⟩ : CrawlStep)] 0 ≤ 5000
    ∧ (⟨[⟨("a1"), 5, false⟩], some ("a1"), true, false, 1,
        [⟨none, [⟨("a1"), 5, false⟩], false⟩], false⟩ : CrawlOut).reachedThreshold
      = finalReached 10
          (⟨[⟨("a1"), 5, false⟩], some ("a1"), true, false, 1,
            [⟨none, [⟨("a1"), 5, false⟩], false⟩], false⟩ : CrawlOut).steps :=
  ⟨(c1_cap_stop c1wNet zeroElapsed ("acct") 10 none _ rfl).1 0 (by decide),
   (c1_cap_stop c1wNet zeroElapsed ("acct") 10 none _ rfl).2⟩

/-- C2 (amended): if the very first page fetch succeeds with an empty page
(and the time budget has not already expired), the result is
`{posts: [], reachedThreshold: false, fellBack: fb}` where `fb` is that
first fetch's own fallback flag — not unconditionally `false`: the
`if (fellBack) wasFellBack = true` latch runs before the empty-page check. -/
theorem c2_first_page_empty
    (net : Nat → ApiRequest → Nat → Response (List MastodonStatus))
    (elapsed : Nat → Nat) (accountId : String) (untilDate : Int)
    (startId : Option String) (fb : Bool)
    (htime : elapsed 0 ≤ 10000)
    (hpage : (getStatusesPage (net 0) accountId startId 40).1 = .ok ⟨[], fb⟩) :
    getStatusesUntil net elapsed accountId untilDate startId =
      .ok ⟨[], startId, false, fb, 0, [⟨startId, [], fb⟩], false⟩ :=
  crawl_empty_first net elapsed accountId untilDate startId fb htime hpage

/-- C2 counterexample: the authorized fetch 403s, the unauthenticated retry
returns an empty first page; the result is empty with
`reachedThreshold = false` but `fellBack = true`, refuting the claimed
`fellBack = false` "regardless of how that first page was fetched". -/
theorem c2_counterexample :
    (getStatusesUntil c2cNet zeroElapsed ("acct") 0 none).toOption.map
        (fun o => (o.statuses, o.reachedThreshold, o.fellBack)) =
      some ([], false, true) := by
  rfl

/-- C2 witness: the amended theorem instantiated on a server whose first
(authenticated) answer is an empty page. -/
theorem c2_witness :
    getStatusesUntil c2wNet zeroElapsed ("acct") 0 none =
      .ok ⟨[], none, false, false, 0, [⟨none, [], false⟩], false⟩ :=
  c2_first_page_empty c2wNet zeroElapsed ("acct") 0 none false (by decide) rfl

/-- C3: if the authenticated statuses request fails with 401 or 403,
`getStatusesPage` issues exactly one more `fetchApi` call — the identical
account id, cursor and limit, only `useAuth := false` — and returns its
result with `fellBack = true` (errors of the retry propagate); any error
other than 401/403 propagates unchanged with no unauthenticated call. -/
theorem c3_permission_fallback
    (net : ApiRequest → Nat → Response (List MastodonStatus))
    (accountId : String) (maxId : Option String) (limit : Nat) :
    (∀ st, (fetchApi net (statusesRequest accountId maxId limit true) 0).result
          = .error (.http st) → st = 401 ∨ st = 403 →
      getStatusesPage net accountId maxId limit =
        ((fetchApi net (statusesRequest accountId maxId limit false) 0).result.map
            (fun sts => ⟨sts, true⟩),
         [statusesRequest accountId maxId limit true,
          statusesRequest accountId maxId limit false]))
    ∧ (∀ e, (fetchApi net (statusesRequest accountId maxId limit true) 0).result
          = .error e → e ≠ .http 401 → e ≠ .http 403 →
      getStatusesPage net accountId maxId limit =
        (.error e, [statusesRequest accountId maxId limit true])) := by
  constructor
  · intro st herr hst
    have hor : (ApiError.http st = .http 403 ∨ ApiError.http st = .http 401) := by
      rcases hst with rfl | rfl
      · exact Or.inr rfl
      · exact Or.inl rfl
    simp only [getStatusesPage, herr, hor, if_true]
    cases hunauth :
        (fetchApi net (statusesRequest accountId maxId limit false) 0).result with
    | ok sts => simp [Except.map]
    | error e2 => simp [Except.map]
  · intro e herr hne1 hne3
    have hor : ¬(e = .http 403 ∨ e = .http 401) := by
      rintro (rfl | rfl)
      · exact hne3 rfl
      · exact hne1 rfl
    simp only [getStatusesPage, herr, hor, if_false]

/-- C3 witness: both branches instantiated — a 403 on the authenticated
fetch (fallback taken, one unauthenticated request, `fellBack = true`), and
a 500 (propagated unchanged, no unauthenticated request). -/
theorem c3_witness :
    (getStatusesPage c3netA ("a") none 40 =
      ((fetchApi c3netA (statusesRequest ("a") none 40 false) 0).result.map
          (fun sts => ⟨sts, true⟩),
       [statusesRequest ("a") none 40 true, statusesRequest ("a") none 40 false]))
    ∧ (getStatusesPage c3netB ("a") none 40 =
        (.error (.http 500), [statusesRequest ("a") none 40 true])) :=
  ⟨(c3_permission_fallback c3netA ("a") none 40).1 403 rfl (Or.inr rfl),
   (c3_permission_fallback c3netB ("a") none 40).2 (.http 500) rfl
     (by decide) (by decide)⟩

/-- C4: a 429 is retried at most 2 additional times; each retry waits
`Retry-After * 1000` ms when the header is present and otherwise
`2 ^ retryCount * 1000` ms (1000 ms, then 2000 ms); after two retries the
third response is final, so an everlasting 429 surfaces as the HTTP error
429. -/
theorem c4_rate_limit_retry {α : Type} (net : ApiRequest → Nat → Response α)
    (req : ApiRequest) :
    ((net req 0).status = 429 → (net req 1).status = 429 →
      fetchApi net req 0 =
        ⟨terminalOf (net req 2),
         [waitMs (net req 0).retryAfter 0, waitMs (net req 1).retryAfter 1]⟩)
    ∧ ((net req 0).status = 429 → (net req 1).status = 429 →
        (net req 2).status = 429 →
      (fetchApi net req 0).result = .error (.http 429))
    ∧ ((net req 0).status = 429 → (net req 1).status ≠ 429 →
      fetchApi net req 0 =
        ⟨terminalOf (net req 1), [waitMs (net req 0).retryAfter 0]⟩)
    ∧ ((net req 0).status ≠ 429 →
      fetchApi net req 0 = ⟨terminalOf (net req 0), []⟩)
    ∧ waitMs none 0 = 1000 ∧ waitMs none 1 = 2000
    ∧ (∀ s rc, waitMs (some s) rc = s * 1000) := by
  have hunfold : fetchApi net req 0 =
      (let r := net req 0
       if r.status = 429 then
         let rest :=
           (let r1 := net req 1
            if r1.status = 429 then
              let rest1 := fetchApiGo net req 2 0
              ⟨rest1.result, waitMs r1.retryAfter 1 :: rest1.waits⟩
            else if respOk r1.status then ⟨.ok r1.body, []⟩
            else ⟨.error (.http r1.status), []⟩ : FetchOut α)
         ⟨rest.result, waitMs r.retryAfter 0 :: rest.waits⟩
       else if respOk r.status then ⟨.ok r.body, []⟩
       else ⟨.error (.http r.status), []⟩) := by
    rfl
  refine ⟨?_, ?_, ?_, ?_, rfl, rfl, fun s rc => rfl⟩
  · intro h0 h1
    rw [hunfold]
    simp only [h0, h1, if_true, fetchApiGo, terminalOf]
    split <;> rfl
  · intro h0 h1 h2
    rw [hunfold]
    simp only [h0, h1, if_true, fetchApiGo, h2]
    simp [respOk, h2]
  · intro h0 h1
    rw [hunfold]
    simp only [h0, if_true, if_neg h1, terminalOf]
    split <;> rfl
  · intro h0
    rw [hunfold]
    simp only [if_neg h0, terminalOf]
    split <;> rfl

/-- C4 witness: all branches instantiated — three straight 429s (two waits,
7000 ms from `Retry-After: 7` then the 2000 ms backoff, then the surfaced
429), one 429 followed by a success (one 1000 ms backoff), and an immediate
success (no waits). -/
theorem c4_witness :
    (fetchApi c4netLimited c4req 0 =
      ⟨terminalOf (c4netLimited c4req 2),
       [waitMs (c4netLimited c4req 0).retryAfter 0,
        waitMs (c4netLimited c4req 1).retryAfter 1]⟩)
    ∧ (fetchApi c4netLimited c4req 0).result = .error (.http 429)
    ∧ (fetchApi c4netRecover c4req 0 =
        ⟨terminalOf (c4netRecover c4req 1),
         [waitMs (c4netRecover c4req 0).retryAfter 0]⟩)
    ∧ (fetchApi c4netOk c4req 0 = ⟨terminalOf (c4netOk c4req 0), []⟩) :=
  ⟨(c4_rate_limit_retry c4netLimited c4req).1 rfl rfl,
   (c4_rate_limit_retry c4netLimited c4req).2.1 rfl rfl rfl,
   (c4_rate_limit_retry c4netRecover c4req).2.2.1 rfl (by decide),
   (c4_rate_limit_retry c4netOk c4req).2.2.2.1 (by decide)⟩

/-- C5 (amended): when every post the server serves is dated on or after
`untilDate` (the threshold predates the account's very first post), the
crawl performs at most 126 page fetches, the loop terminates by its own
stop conditions (the fuel of the embedding is never exhausted), and the
returned `reachedThreshold` is `false` — not `true` as claimed: no page's
oldest post is ever strictly older than `untilDate`. -/
theorem c5_predates_termination
    (net : Nat → ApiRequest → Nat → Response (List MastodonStatus))
    (elapsed : Nat → Nat) (accountId : String) (untilDate : Int)
    (startId : Option String) (out : CrawlOut)
    (hdates : ∀ i r att s, s ∈ (net i r att).body → untilDate ≤ s.created_at)
    (h : getStatusesUntil net elapsed accountId untilDate startId = .ok out) :
    out.reachedThreshold = false ∧ out.steps.length ≤ 126
    ∧ out.fuelExhausted = false := by
  obtain ⟨-, -, -, -, -, h6, h7, h8, h9⟩ :=
    crawlLoop_spec net elapsed accountId untilDate 127 0 [] startId 0 false out h
  refine ⟨?_, by simpa using h7 (by omega), h8 (by omega) (by omega)⟩
  cases hfr : finalReached untilDate out.steps with
  | false => rw [h6, hfr]
  | true =>
    obtain ⟨st, hmem, x, hx, hlt⟩ := finalReached_true_exists untilDate out.steps hfr
    obtain ⟨i, useAuth, att, hb⟩ := h9 st hmem
    have hxm : x ∈ st.batch := getLast?_some_mem hx
    rw [hb] at hxm
    have := hdates i _ att x hxm
    omega

/-- C5 counterexample: a timeline with a single post dated 5 and threshold 0
(so the threshold predates the account's first post): the crawl stops after
its one-page fetch with `reachedThreshold = false`, not `true`. -/
theorem c5_counterexample :
    (getStatusesUntil c5cNet zeroElapsed ("acct") 0 none).toOption.map
        (fun o => (o.reachedThreshold, o.statuses.length)) =
      some (false, 1) := by
  rfl

/-- C5 witness: the amended theorem instantiated on a two-post undersized
page dated 7 and 6 with threshold 0. -/
theorem c5_witness :
    (⟨[⟨("q1"), 7, false⟩, ⟨("q2"), 6, false⟩], some ("q2"), false, false, 2,
        [⟨none, [⟨("q1"), 7, false⟩, ⟨("q2"), 6, false⟩], false⟩], false⟩ :
      CrawlOut).reachedThreshold = false
    ∧ (⟨[⟨("q1"), 7, false⟩, ⟨("q2"), 6, false⟩], some ("q2"), false, false, 2,
        [⟨none, [⟨("q1"), 7, false⟩, ⟨("q2"), 6, false⟩], false⟩], false⟩ :
      CrawlOut).steps.length ≤ 126
    ∧ (⟨[⟨("q1"), 7, false⟩, ⟨("q2"), 6, false⟩], some ("q2"), false, false, 2,
        [⟨none, [⟨("q1"), 7, false⟩, ⟨("q2"), 6, false⟩], false⟩], false⟩ :
      CrawlOut).fuelExhausted = false :=
  c5_predates_termination c5wNet zeroElapsed ("acct") 0 none _
    (by
      intro i r att s hs
      simp only [c5wNet, List.mem_cons, List.not_mem_nil, or_false] at hs
      rcases hs with rfl | rfl <;> decide)
    rfl

/-- C6: in every successful crawl, the accumulated statuses are exactly the
fetched pages concatenated in fetch order with reblogs filtered out (so order
is preserved and no reblog appears), while the total-fetched counter counts
every fetched element, reblogs included. -/
theorem c6_reblog_filter_order
    (net : Nat → ApiRequest → Nat → Response (List MastodonStatus))
    (elapsed : Nat → Nat) (accountId : String) (untilDate : Int)
    (startId : Option String) (out : CrawlOut)
    (h : getStatusesUntil net elapsed accountId untilDate startId = .ok out) :
    out.statuses = (fetchedBatches out.steps).filter (fun s => !s.reblog)
    ∧ out.totalFetched = (fetchedBatches out.steps).length
    ∧ ∀ s ∈ out.statuses, s.reblog = false := by
  obtain ⟨h1, h2, -, -, -, -, -, -, -⟩ :=
    crawlLoop_spec net elapsed accountId untilDate 127 0 [] startId 0 false out h
  refine ⟨by simpa using h1, by simpa using h2, ?_⟩
  intro s hs
  rw [h1] at hs
  simp only [List.nil_append, List.mem_filter, Bool.not_eq_true'] at hs
  exact hs.2

/-- C6 witness: the theorem instantiated on a page mixing two originals with
one reblog: the reblog is counted (`totalFetched = 3`) but filtered out. -/
theorem c6_witness :
    c6out.statuses = (fetchedBatches c6out.steps).filter (fun s => !s.reblog)
    ∧ c6out.totalFetched = (fetchedBatches c6out.steps).length
    ∧ (⟨("x1"), 5, false⟩ : MastodonStatus).reblog = false :=
  ⟨(c6_reblog_filter_order c6net zeroElapsed ("acct") 0 none c6out rfl).1,
   (c6_reblog_filter_order c6net zeroElapsed ("acct") 0 none c6out rfl).2.1,
   (c6_reblog_filter_order c6net zeroElapsed ("acct") 0 none c6out rfl).2.2
     _ (by decide)⟩

/-- C7: in every successful crawl the cursor discipline holds — each page is
requested with the cursor left by the previous page, and immediately after a
non-empty page the cursor is the id of that page's last (oldest) element
(`chainFrom`); and whenever the server only returns ids strictly below the
requested cursor (`f` embeds ids into their server-side age order), the
session's successive cursor values strictly decrease: the cursor only moves
toward older content. -/
theorem c7_cursor_tracking (f : String → Nat)
    (net : Nat → ApiRequest → Nat → Response (List MastodonStatus))
    (elapsed : Nat → Nat) (accountId : String) (untilDate : Int)
    (startId : Option String) (out : CrawlOut)
    (hserver : ∀ i att (lim : Nat) useAuth c s,
      s ∈ (net i (statusesRequest accountId (some c) lim useAuth) att).body →
        f s.id < f c)
    (h : getStatusesUntil net elapsed accountId untilDate startId = .ok out) :
    chainFrom startId out.lastId out.steps = true
    ∧ (startId.toList ++ cursorTrail out.steps).Pairwise
        (fun a b => f b < f a) := by
  obtain ⟨-, -, h3, -, -, -, -, -, h9⟩ :=
    crawlLoop_spec net elapsed accountId untilDate 127 0 [] startId 0 false out h
  exact ⟨h3, trail_pairwise f net accountId hserver out.steps startId out.lastId h3 h9⟩

/-- C7 witness: the theorem instantiated on a two-page run over `c7net`
(ids ordered by string length), starting with no cursor. -/
theorem c7_witness :
    chainFrom none c7out.lastId c7out.steps = true
    ∧ ((none : Option String).toList ++ cursorTrail c7out.steps).Pairwise
        (fun a b => String.length b < String.length a) :=
  c7_cursor_tracking (fun s => String.length s) c7net zeroElapsed ("acct") 0
    none c7out
    (by
      intro i att lim useAuth c s hs
      have hkey : lookupMaxId (statusesRequest ("acct") (some c) lim useAuth)
          = some c := rfl
      simp only [c7net, hkey, c7page] at hs
      by_cases hc : c = ("aa")
      · rw [if_pos hc] at hs
        simp only [List.mem_cons, List.not_mem_nil, or_false] at hs
        subst hs
        rw [hc]
        decide
      · rw [if_neg hc] at hs
        simp at hs)
    rfl

/-- C8: in every successful crawl, every page that was followed by another
page fetch had at least the requested 40 elements; equivalently, an
undersized page is always the session's final page — the loop performs no
fetch after it, regardless of the threshold. -/
theorem c8_undersized_stops
    (net : Nat → ApiRequest → Nat → Response (List MastodonStatus))
    (elapsed : Nat → Nat) (accountId : String) (untilDate : Int)
    (startId : Option String) (out : CrawlOut)
    (h : getStatusesUntil net elapsed accountId untilDate startId = .ok out) :
    ∀ st ∈ out.steps.dropLast, 40 ≤ st.batch.length := by
  obtain ⟨-, -, -, h4, -, -, -, -, -⟩ :=
    crawlLoop_spec net elapsed accountId untilDate 127 0 [] startId 0 false out h
  exact h4

/-- C8 witness: the theorem instantiated on a full page followed by an
undersized page; the only non-final page is the 40-element one. -/
theorem c8_witness :
    40 ≤ (⟨none, List.replicate 40 ⟨("b1"), 5, false⟩, false⟩ : CrawlStep).batch.length :=
  c8_undersized_stops c8net zeroElapsed ("acct") 0 none c8out rfl _
    (by simp [c8out])

/-- C9: `verifyCredentials` on a service configured without a token fails
with the precondition error before issuing any HTTP request — the trace of
issued requests is empty, so in particular nothing is retried. -/
theorem c9_verify_requires_token (α : Type) (net : ApiRequest → Nat → Response α) :
    verifyCredentials none net = (.error .tokenRequired, []) := rfl

/-- C10: if the very first page fetch succeeds with an empty page (and the
time budget has not already expired), the returned `lastId` equals the
`startId` argument (including `none` when no cursor was supplied): an empty
page leaves the cursor unchanged. -/
theorem c10_empty_first_cursor
    (net : Nat → ApiRequest → Nat → Response (List MastodonStatus))
    (elapsed : Nat → Nat) (accountId : String) (untilDate : Int)
    (startId : Option String) (fb : Bool) (out : CrawlOut)
    (htime : elapsed 0 ≤ 10000)
    (hpage : (getStatusesPage (net 0) accountId startId 40).1 = .ok ⟨[], fb⟩)
    (h : getStatusesUntil net elapsed accountId untilDate startId = .ok out) :
    out.lastId = startId := by
  rw [crawl_empty_first net elapsed accountId untilDate startId fb htime hpage] at h
  injection h with h'
  subst h'
  rfl

/-- C10 witness: the theorem instantiated on an empty timeline crawled from
the explicit cursor `s0`, which is returned unchanged. -/
theorem c10_witness :
    (⟨[], some ("s0"), false, false, 0, [⟨some ("s0"), [], false⟩], false⟩ :
      CrawlOut).lastId = some ("s0") :=
  c10_empty_first_cursor c10net zeroElapsed ("acct") 0 (some ("s0")) false _
    (by decide) rfl rfl

end MastodonExplorer
